import Mathlib

/-!
Shallow embedding of the test-spec evaluation engine and lot-yield ledger of
the NanoVNASaver test-stand repository.

Sources embedded:
- `src/NanoVNASaver/TestSpec.py`: `TestPoint`, `evaluate_test_point`,
  `evaluate_testspec` (dB gains are modelled as rationals; the code only
  compares, min/max-es and copies them, so order structure is all that is
  used; Python integers are modelled as `Int`, `//` as `Int.fdiv`).
- `src/NanoVNASaver/Controls/SweepEvaluate.py`: the `overall_pass`
  aggregation loop of `SweepEvaluate.evaluate` (lines 491-513).
- `src/NanoVNASaver/Controls/LotControl.py`: the ledger-update tail of
  `save_results_for_latest` (lines 671-778) and the count-loading logic of
  `select_lot` / `scan_working_directory`.
-/

/-- A sweep sample as consumed by the evaluation engine: `Datapoint.freq`
(integer Hz) and the derived `gain` in dB (`RFTools.Datapoint`). -/
structure Datapoint where
  freq : Int
  gain : ℚ
deriving DecidableEq, Repr

/-- `TestSpec.TestPoint`: one limit rule. -/
structure TestPoint where
  name : String
  parameter : String
  frequency : Int
  span : Int
  limit_db : ℚ
  direction : String
deriving DecidableEq, Repr

/-- The value stored under the `"samples"` key of the result dict of
`evaluate_test_point`: the empty branch stores the literal list `[]`, the
non-empty branch stores the integer `len(samples)`. -/
inductive SamplesField where
  | raw : List Datapoint → SamplesField
  | count : Nat → SamplesField
deriving DecidableEq, Repr

/-- The result dict returned by `evaluate_test_point`. `reason` is `some`
exactly when the dict carries a `"reason"` key (the empty-window branch). -/
structure EvalResult where
  name : String
  pass : Bool
  reason : Option String
  min : Option ℚ
  max : Option ℚ
  failing : List Int
  samples : SamplesField
deriving DecidableEq, Repr

/-- The window filter of `evaluate_test_point`:
`low <= dp.freq <= high` with `low = tp.frequency - tp.span // 2` and
`high = tp.frequency + tp.span // 2` (Python `//` is floor division). -/
def in_window (tp : TestPoint) (dp : Datapoint) : Bool :=
  decide (tp.frequency - tp.span.fdiv 2 ≤ dp.freq) &&
    decide (dp.freq ≤ tp.frequency + tp.span.fdiv 2)

/-- Python `min` over a non-empty list, `none` on the empty list. -/
def listMin : List ℚ → Option ℚ
  | [] => none
  | g :: gs => some (gs.foldl min g)

/-- Python `max` over a non-empty list, `none` on the empty list. -/
def listMax : List ℚ → Option ℚ
  | [] => none
  | g :: gs => some (gs.foldl max g)

/-- `TestSpec.evaluate_test_point` (lines 92-126). -/
def evaluate_test_point (data : List Datapoint) (tp : TestPoint) : EvalResult :=
  let samples := data.filter (in_window tp)
  if samples.isEmpty then
    { name := tp.name, pass := false, reason := some "no_samples",
      samples := SamplesField.raw [], min := none, max := none, failing := [] }
  else
    let gains := samples.map (fun dp => dp.gain)
    let failing :=
      if tp.direction == "over" then
        samples.filter (fun dp => decide (dp.gain < tp.limit_db))
      else
        samples.filter (fun dp => decide (tp.limit_db < dp.gain))
    { name := tp.name, pass := failing.length == 0, reason := none,
      min := listMin gains, max := listMax gains,
      failing := failing.map (fun dp => dp.freq),
      samples := SamplesField.count samples.length }

/-- `TestSpec.TestSpec`: sweep hints (not used by the claims) and the ordered
rule list. -/
structure TestSpec where
  sweep : List (String × Int)
  tests : List TestPoint
deriving DecidableEq, Repr

/-- Python `str.lower` restricted to ASCII, as applied to parameter names. -/
def pyLower (s : String) : String :=
  String.mk (s.data.map
    (fun c => if c.toNat ≥ 65 ∧ c.toNat ≤ 90 then Char.ofNat (c.toNat + 32) else c))

/-- One entry of the list returned by `evaluate_testspec`: the
`evaluate_test_point` dict updated with the rule's static fields. -/
structure SpecResult where
  res : EvalResult
  parameter : String
  freq : Int
  limit_db : ℚ
  direction : String
deriving DecidableEq, Repr

/-- `TestSpec.evaluate_testspec` (lines 129-143). -/
def evaluate_testspec (s11 s21 : List Datapoint) (spec : TestSpec) :
    List SpecResult :=
  spec.tests.map (fun tp =>
    let data := if pyLower tp.parameter == "s11" then s11 else s21
    { res := evaluate_test_point data tp, parameter := tp.parameter,
      freq := tp.frequency, limit_db := tp.limit_db, direction := tp.direction })

/-- The `overall_pass` aggregation loop of `SweepEvaluate.evaluate`
(SweepEvaluate.py lines 491-504): starts `True`, cleared on any row whose
`res["pass"]` is falsy; `TestData.passed` is set to the final value. -/
def evaluate_overall_passed (results : List SpecResult) : Bool :=
  results.foldl (fun acc r => if !r.res.pass then false else acc) true

/-- The in-memory ledger state of `LotControl` for one lot: the raw run
counter `lot_samples[name]`, the `lot_units[name]` list of
`[unit_id, passed_bool]` pairs, and the `lot_passed_units[name]` /
`lot_failed_units[name]` counters. -/
structure LotState where
  samples : Int
  units : List (String × Bool)
  passed_units : Int
  failed_units : Int
deriving DecidableEq, Repr

/-- A freshly created lot (`add_lot` with `samples=0`, no units). -/
def empty_lot : LotState :=
  { samples := 0, units := [], passed_units := 0, failed_units := 0 }

/-- `units[found_index][1] = v`: sets the boolean of the first entry whose
identifier matches `uid`, leaving everything else untouched. -/
def set_unit : List (String × Bool) → String → Bool → List (String × Bool)
  | [], _, _ => []
  | u :: rest, uid, v =>
      if u.1 == uid then (u.1, v) :: rest else set_unit rest uid v |> (u :: ·)

/-- The `found_index` scan of `save_results_for_latest` (lines 687-694):
first entry whose identifier equals `uid`. -/
def find_unit (units : List (String × Bool)) (uid : String) :
    Option (String × Bool) :=
  units.find? (fun u => u.1 == uid)

/-- The ledger update of `save_results_for_latest` (LotControl.py lines
674-726) for one saved run: `samples` always increments; `units` and the
two counters change only when the run's `passed` is a boolean (`some`),
following the state-transition rules; `none` models a non-boolean `passed`
value such as the legacy `"UNKNOWN"` sentinel. -/
def save_run (st : LotState) (unit_id : String) (passed : Option Bool) :
    LotState :=
  let st1 := { st with samples := st.samples + 1 }
  match passed with
  | none => st1
  | some p =>
    match find_unit st1.units unit_id with
    | none =>
        { st1 with
          units := st1.units ++ [(unit_id, p)],
          passed_units := if p then st1.passed_units + 1 else st1.passed_units,
          failed_units := if p then st1.failed_units else st1.failed_units + 1 }
    | some u =>
        if p && !u.2 then
          { st1 with
            units := set_unit st1.units unit_id true,
            passed_units := st1.passed_units + 1,
            failed_units := max 0 (st1.failed_units - 1) }
        else if !p && u.2 then
          { st1 with
            units := set_unit st1.units unit_id false,
            failed_units := st1.failed_units + 1,
            passed_units := max 0 (st1.passed_units - 1) }
        else st1

/-- A sequence of saved runs applied to a fresh lot. -/
def apply_runs (runs : List (String × Option Bool)) : LotState :=
  runs.foldl (fun st r => save_run st r.1 r.2) empty_lot

/-- The yield computed by `save_results_for_latest` (line 730):
`float(passed_units) / len(units) if len(units) else 0.0`. -/
def lot_yield (st : LotState) : ℚ :=
  if st.units.length = 0 then 0
  else (st.passed_units : ℚ) / (st.units.length : ℚ)

/-- The fields of the lot JSON written by `save_results_for_latest`
(lines 736-745) that the claims speak about. -/
structure LotJson where
  samples : Int
  passed_units : Int
  failed_units : Int
  yield_val : ℚ
  units : List (String × Bool)
deriving DecidableEq, Repr

/-- The serialisation step at lines 736-747 of LotControl.py. -/
def write_lot_json (st : LotState) : LotJson :=
  { samples := st.samples, passed_units := st.passed_units,
    failed_units := st.failed_units, yield_val := lot_yield st,
    units := st.units }

/-- The persistence tail of `save_results_for_latest` (lines 671-778):
`saved_any` is set only after the per-run results JSON was written
successfully (line 634); the ledger update, the lot-JSON write and the log
append all sit under `if lot_name and saved_any`. The result is the new
ledger state, the lot JSON written (if any) and whether a log row was
appended. -/
def save_results_tail (lot_name : Option String) (st : LotState)
    (unit_id : String) (passed : Option Bool) (saved_any : Bool) :
    LotState × Option LotJson × Bool :=
  match lot_name with
  | none => (st, none, false)
  | some name =>
      if name ≠ "" ∧ saved_any then
        let st' := save_run st unit_id passed
        (st', some (write_lot_json st'), true)
      else (st, none, false)

/-- Count of units currently recorded as passing
(`sum(1 for u in units if bool(u[1]))`). -/
def count_passed (units : List (String × Bool)) : Nat :=
  units.countP (fun u => u.2)

/-- Count of units currently recorded as failing. -/
def count_failed (units : List (String × Bool)) : Nat :=
  units.countP (fun u => !u.2)

/-- The counters agree with the `units` table. This holds for every lot
state reachable from a fresh lot. -/
def consistent (st : LotState) : Prop :=
  st.passed_units = (count_passed st.units : Int) ∧
    st.failed_units = (count_failed st.units : Int)

/-- The fields of a lot JSON read back by `select_lot` /
`scan_working_directory` that determine the in-memory counts. A `none`
field models a key absent from the JSON document; `units` is
`info.get("units", [])` (already coerced to a list). -/
structure LotInfoJson where
  passed_units_field : Option Int
  failed_units_field : Option Int
  passed_legacy : Option Int
  failed_legacy : Option Int
  units : List (String × Bool)
deriving DecidableEq, Repr

/-- The count-loading logic shared by `select_lot` (lines 260-266) and
`scan_working_directory` (lines 337-344):
`passed_units = int(info.get("passed_units", info.get("passed", 0)))`,
likewise for `failed_units`, then recomputation from `units` when
`units` is truthy (non-empty) and either explicit count key is absent. -/
def load_counts (info : LotInfoJson) : Int × Int :=
  let passed_units := info.passed_units_field.getD (info.passed_legacy.getD 0)
  let failed_units := info.failed_units_field.getD (info.failed_legacy.getD 0)
  if info.units ≠ [] ∧
      (info.passed_units_field = none ∨ info.failed_units_field = none) then
    ((count_passed info.units : Int),
      (info.units.length : Int) - (count_passed info.units : Int))
  else (passed_units, failed_units)

/-- The direction parsing of `parse_test_spec` (TestSpec.py line 86):
`t.get("direction", "over")`, with no validation of the value. -/
def parse_direction (d : Option String) : String := d.getD "over"

/-! ### Helper lemmas -/

lemma foldl_min_spec (gs : List ℚ) :
    ∀ g : ℚ, (gs.foldl min g = g ∨ gs.foldl min g ∈ gs) ∧
      gs.foldl min g ≤ g ∧ ∀ x ∈ gs, gs.foldl min g ≤ x := by
  induction gs with
  | nil => intro g; exact ⟨Or.inl rfl, le_refl g, by simp⟩
  | cons a as ih =>
    intro g
    obtain ⟨hmem, hle, hall⟩ := ih (min g a)
    rw [List.foldl_cons]
    refine ⟨?_, ?_, ?_⟩
    · rcases hmem with h | h
      · rcases min_choice g a with hc | hc
        · exact Or.inl (h.trans hc)
        · exact Or.inr (by rw [h, hc]; exact List.mem_cons_self a as)
      · exact Or.inr (List.mem_cons_of_mem a h)
    · exact hle.trans (min_le_left g a)
    · intro x hx
      rcases List.mem_cons.mp hx with h | h
      · exact h ▸ hle.trans (min_le_right g a)
      · exact hall x h

lemma foldl_max_spec (gs : List ℚ) :
    ∀ g : ℚ, (gs.foldl max g = g ∨ gs.foldl max g ∈ gs) ∧
      g ≤ gs.foldl max g ∧ ∀ x ∈ gs, x ≤ gs.foldl max g := by
  induction gs with
  | nil => intro g; exact ⟨Or.inl rfl, le_refl g, by simp⟩
  | cons a as ih =>
    intro g
    obtain ⟨hmem, hle, hall⟩ := ih (max g a)
    rw [List.foldl_cons]
    refine ⟨?_, ?_, ?_⟩
    · rcases hmem with h | h
      · rcases max_choice g a with hc | hc
        · exact Or.inl (h.trans hc)
        · exact Or.inr (by rw [h, hc]; exact List.mem_cons_self a as)
      · exact Or.inr (List.mem_cons_of_mem a h)
    · exact (le_max_left g a).trans hle
    · intro x hx
      rcases List.mem_cons.mp hx with h | h
      · exact h ▸ (le_max_right g a).trans hle
      · exact hall x h

lemma listMin_spec (l : List ℚ) (h : l ≠ []) :
    ∃ m, listMin l = some m ∧ m ∈ l ∧ ∀ x ∈ l, m ≤ x := by
  match l with
  | [] => exact absurd rfl h
  | g :: gs =>
    obtain ⟨hmem, hle, hall⟩ := foldl_min_spec gs g
    refine ⟨gs.foldl min g, rfl, ?_, ?_⟩
    · rcases hmem with h1 | h1
      · rw [h1]; exact List.mem_cons_self g gs
      · exact List.mem_cons_of_mem g h1
    · intro x hx
      rcases List.mem_cons.mp hx with h1 | h1
      · exact h1 ▸ hle
      · exact hall x h1

lemma listMax_spec (l : List ℚ) (h : l ≠ []) :
    ∃ m, listMax l = some m ∧ m ∈ l ∧ ∀ x ∈ l, x ≤ m := by
  match l with
  | [] => exact absurd rfl h
  | g :: gs =>
    obtain ⟨hmem, hle, hall⟩ := foldl_max_spec gs g
    refine ⟨gs.foldl max g, rfl, ?_, ?_⟩
    · rcases hmem with h1 | h1
      · rw [h1]; exact List.mem_cons_self g gs
      · exact List.mem_cons_of_mem g h1
    · intro x hx
      rcases List.mem_cons.mp hx with h1 | h1
      · exact h1 ▸ hle
      · exact hall x h1

lemma count_passed_add_count_failed (units : List (String × Bool)) :
    count_passed units + count_failed units = units.length := by
  induction units with
  | nil => rfl
  | cons u rest ih =>
    simp only [count_passed, count_failed, List.countP_cons, List.length_cons] at *
    cases h : u.2 <;> simp [h] <;> omega

lemma set_unit_length (units : List (String × Bool)) (uid : String) (v : Bool) :
    (set_unit units uid v).length = units.length := by
  induction units with
  | nil => rfl
  | cons u rest ih =>
    simp only [set_unit]
    by_cases h : (u.1 == uid) = true
    · simp [h]
    · simp only [Bool.not_eq_true] at h
      simp [h, ih]

lemma find_unit_eq_some (units : List (String × Bool)) (uid : String)
    (w : String × Bool) (h : find_unit units uid = some w) :
    w.1 = uid ∧ w ∈ units := by
  refine ⟨?_, List.mem_of_find?_eq_some h⟩
  have := List.find?_some h
  simpa using this

lemma count_passed_set_unit (units : List (String × Bool)) (uid : String)
    (v : Bool) (w : String × Bool) (h : find_unit units uid = some w) :
    (count_passed (set_unit units uid v) : Int) =
      (count_passed units : Int) - (if w.2 then 1 else 0) +
        (if v then 1 else 0) := by
  induction units with
  | nil => simp [find_unit] at h
  | cons u rest ih =>
    rw [find_unit, List.find?_cons] at h
    by_cases hc : (u.1 == uid) = true
    · simp only [hc] at h
      injection h with h
      subst h
      simp only [set_unit, hc, if_pos, count_passed, List.countP_cons]
      cases u.2 <;> cases v <;> simp
    · simp only [Bool.not_eq_true] at hc
      simp only [hc] at h
      have ih' := ih (by rw [find_unit]; exact h)
      simp only [set_unit, hc, Bool.false_eq_true, if_false,
        count_passed, List.countP_cons] at *
      cases hu : u.2 <;> simp [hu] <;> omega

lemma count_failed_set_unit (units : List (String × Bool)) (uid : String)
    (v : Bool) (w : String × Bool) (h : find_unit units uid = some w) :
    (count_failed (set_unit units uid v) : Int) =
      (count_failed units : Int) - (if w.2 then 0 else 1) +
        (if v then 0 else 1) := by
  induction units with
  | nil => simp [find_unit] at h
  | cons u rest ih =>
    rw [find_unit, List.find?_cons] at h
    by_cases hc : (u.1 == uid) = true
    · simp only [hc] at h
      injection h with h
      subst h
      simp only [set_unit, hc, if_pos, count_failed, List.countP_cons]
      cases u.2 <;> cases v <;> simp
    · simp only [Bool.not_eq_true] at hc
      simp only [hc] at h
      have ih' := ih (by rw [find_unit]; exact h)
      simp only [set_unit, hc, Bool.false_eq_true, if_false,
        count_failed, List.countP_cons] at *
      cases hu : u.2 <;> simp [hu] <;> omega

lemma find_unit_set_unit (units : List (String × Bool)) (uid : String)
    (v : Bool) (w : String × Bool) (h : find_unit units uid = some w) :
    find_unit (set_unit units uid v) uid = some (uid, v) := by
  induction units with
  | nil => simp [find_unit] at h
  | cons u rest ih =>
    rw [find_unit, List.find?_cons] at h
    by_cases hc : (u.1 == uid) = true
    · have hu1 : u.1 = uid := by simpa using hc
      simp only [set_unit, hc, if_pos, find_unit, List.find?_cons]
      simp [hu1]
    · simp only [Bool.not_eq_true] at hc
      simp only [hc] at h
      have ih' := ih (by rw [find_unit]; exact h)
      simp only [set_unit, hc, Bool.false_eq_true, if_false]
      rw [find_unit, List.find?_cons, hc]
      exact ih'

lemma count_failed_pos (units : List (String × Bool)) (w : String × Bool)
    (hw : w ∈ units) (h2 : w.2 = false) : 1 ≤ count_failed units := by
  have : 0 < count_failed units := by
    rw [count_failed, List.countP_pos_iff]
    exact ⟨w, hw, by simp [h2]⟩
  omega

lemma count_passed_pos (units : List (String × Bool)) (w : String × Bool)
    (hw : w ∈ units) (h2 : w.2 = true) : 1 ≤ count_passed units := by
  have : 0 < count_passed units := by
    rw [count_passed, List.countP_pos_iff]
    exact ⟨w, hw, by simp [h2]⟩
  omega

lemma save_run_consistent (st : LotState) (uid : String) (p : Option Bool)
    (h : consistent st) : consistent (save_run st uid p) := by
  obtain ⟨hp, hf⟩ := h
  match p with
  | none => exact ⟨hp, hf⟩
  | some b =>
    rw [save_run]
    cases hfind : find_unit st.units uid with
    | none =>
      cases b <;>
        simp_all [consistent, count_passed, count_failed, List.countP_append]
    | some u =>
      obtain ⟨hu1, humem⟩ := find_unit_eq_some st.units uid u hfind
      cases b <;> cases hu2 : u.2
      · simp only [Bool.false_and, Bool.not_false, Bool.and_true,
          Bool.and_false, Bool.false_eq_true, if_false, hu2]
        exact ⟨hp, hf⟩
      · have hcp := count_passed_set_unit st.units uid false u hfind
        have hcf := count_failed_set_unit st.units uid false u hfind
        have hpos := count_passed_pos st.units u humem hu2
        simp only [hu2, Bool.not_true, Bool.and_false, Bool.false_eq_true,
          if_false, Bool.false_and, Bool.true_and, Bool.not_false, if_true]
        constructor
        · simp only [consistent]
          rw [hcp]
          simp [hu2, hp]
          omega
        · simp only [consistent]
          rw [hcf]
          simp [hu2, hf]
      · have hcp := count_passed_set_unit st.units uid true u hfind
        have hcf := count_failed_set_unit st.units uid true u hfind
        have hpos := count_failed_pos st.units u humem hu2
        simp only [hu2, Bool.not_false, Bool.and_true, Bool.true_and, if_true]
        constructor
        · simp only [consistent]
          rw [hcp]
          simp [hu2, hp]
        · simp only [consistent]
          rw [hcf]
          simp [hu2, hf]
          omega
      · simp only [hu2, Bool.not_true, Bool.and_false, Bool.false_eq_true,
          if_false, Bool.true_and]
        exact ⟨hp, hf⟩

lemma empty_lot_consistent : consistent empty_lot := ⟨rfl, rfl⟩

lemma apply_runs_consistent (runs : List (String × Option Bool)) :
    consistent (apply_runs runs) := by
  rw [apply_runs]
  have : ∀ st, consistent st →
      consistent (runs.foldl (fun st r => save_run st r.1 r.2) st) := by
    induction runs with
    | nil => intro st h; exact h
    | cons r rest ih =>
      intro st h
      exact ih _ (save_run_consistent st r.1 r.2 h)
  exact this empty_lot empty_lot_consistent

lemma overall_foldl (l : List SpecResult) (acc : Bool) :
    l.foldl (fun acc r => if !r.res.pass then false else acc) acc =
      (acc && l.all fun r => r.res.pass) := by
  induction l generalizing acc with
  | nil => simp
  | cons h t ih =>
    rw [List.foldl_cons, ih]
    cases hp : h.res.pass <;> simp [hp]

/-! ### Claim theorems -/

/-- Claim C7: the aggregated `TestData.passed` computed by
`SweepEvaluate.evaluate` equals the conjunction of every rule result's
passed flag, and is vacuously `true` on an empty rule-result list. -/
theorem claim_C7 (results : List SpecResult) :
    (evaluate_overall_passed results = true ↔
      ∀ r ∈ results, r.res.pass = true) ∧
    evaluate_overall_passed [] = true := by
  constructor
  · rw [evaluate_overall_passed, overall_foldl]
    simp
  · rfl

/-- Claim C8: saving a `TestData` whose `passed` field is not a boolean
(modelled by `none`) leaves `units`, `passed_units` and `failed_units`
exactly unchanged; only the raw `samples` counter changes (by one). -/
theorem claim_C8 (st : LotState) (uid : String) :
    (save_run st uid none).units = st.units ∧
    (save_run st uid none).passed_units = st.passed_units ∧
    (save_run st uid none).failed_units = st.failed_units ∧
    (save_run st uid none).samples = st.samples + 1 :=
  ⟨rfl, rfl, rfl, rfl⟩

/-- Claim C10: if the per-run results JSON write fails (`saved_any` stays
`false`) the ledger state, the on-disk lot JSON and the log are all left
untouched; with a selected lot and a successful write the ledger is updated
and the updated state is what gets serialised. -/
theorem claim_C10 (lot_name : Option String) (st : LotState) (uid : String)
    (p : Option Bool) :
    save_results_tail lot_name st uid p false = (st, none, false) ∧
    ∀ name : String, name ≠ "" →
      save_results_tail (some name) st uid p true =
        (save_run st uid p, some (write_lot_json (save_run st uid p)), true) := by
  constructor
  · cases lot_name with
    | none => rfl
    | some name => rw [save_results_tail]; simp
  · intro name hname
    rw [save_results_tail]
    simp [hname]

/-- Witness for claim C10 at a concrete lot, unit and run. -/
theorem claim_C10_witness :
    save_results_tail (some "lotB") empty_lot "SNX" (some false) false =
      (empty_lot, none, false) ∧
    save_results_tail (some "lotB") empty_lot "SNX" (some false) true =
      (save_run empty_lot "SNX" (some false),
        some (write_lot_json (save_run empty_lot "SNX" (some false))), true) :=
  ⟨(claim_C10 (some "lotB") empty_lot "SNX" (some false)).1,
    (claim_C10 (some "lotB") empty_lot "SNX" (some false)).2 "lotB" (by decide)⟩

/-- The zero-coverage rule of the repository's own regression test
`test_evaluate_point_no_samples`. -/
def tp_c4 : TestPoint :=
  { name := "T3", parameter := "s21", frequency := 1, span := 10,
    limit_db := 0, direction := "over" }

/-- Claim C4: with zero in-window samples the result has `passed = false`,
`min = max = None` and `failing = []` as claimed, but the `"samples"` entry
is the literal empty list, not the integer count `0` that the claim, the
function's docstring ("sample count") and the `TestResult.samples: int`
declaration call for. -/
theorem claim_C4 (data : List Datapoint) (tp : TestPoint)
    (h : data.filter (in_window tp) = []) :
    evaluate_test_point data tp =
      { name := tp.name, pass := false, reason := some "no_samples",
        min := none, max := none, failing := [],
        samples := SamplesField.raw [] } ∧
    SamplesField.raw [] ≠ SamplesField.count 0 := by
  constructor
  · rw [evaluate_test_point]
    simp [h]
  · intro hcon
    cases hcon

/-- Witness for claim C4 at the repository's own regression-test input. -/
theorem claim_C4_witness :
    evaluate_test_point [] tp_c4 =
      { name := tp_c4.name, pass := false, reason := some "no_samples",
        min := none, max := none, failing := [],
        samples := SamplesField.raw [] } ∧
    SamplesField.raw [] ≠ SamplesField.count 0 :=
  claim_C4 [] tp_c4 rfl

/-- A rule whose direction is neither "over" nor "under". -/
def tp_sideways : TestPoint :=
  { name := "T", parameter := "s21", frequency := 1000, span := 20,
    limit_db := 0, direction := "sideways" }

/-- Counterexample to claim C5: a rule with direction `"sideways"` is not
rejected anywhere; `evaluate_test_point` evaluates it exactly as if the
direction were `"under"`, producing a definite fail with the violating
frequency collected. -/
theorem claim_C5_counterexample :
    evaluate_test_point [{ freq := 1000, gain := 1 }] tp_sideways =
      evaluate_test_point [{ freq := 1000, gain := 1 }]
        { tp_sideways with direction := "under" } ∧
    (evaluate_test_point [{ freq := 1000, gain := 1 }] tp_sideways).pass
      = false ∧
    (evaluate_test_point [{ freq := 1000, gain := 1 }] tp_sideways).failing
      = [1000] := by
  refine ⟨?_, ?_, ?_⟩ <;> decide

/-- Claim C5 amended: there is no `UnknownDirection` error anywhere in the
code; `parse_test_spec` defaults an absent direction to `"over"` without
validating the value, and `evaluate_test_point` silently treats every
direction other than `"over"` with `"under"` semantics. -/
theorem claim_C5 (data : List Datapoint) (tp : TestPoint)
    (h : tp.direction ≠ "over") :
    parse_direction none = "over" ∧
    evaluate_test_point data tp =
      evaluate_test_point data { tp with direction := "under" } := by
  refine ⟨rfl, ?_⟩
  have hb : (tp.direction == "over") = false := beq_eq_false_iff_ne.mpr h
  rw [evaluate_test_point, evaluate_test_point]
  simp only [hb]
  rfl

/-- Witness for (amended) claim C5 at a concrete rule and trace. -/
theorem claim_C5_witness :
    parse_direction none = "over" ∧
    evaluate_test_point [{ freq := 1000, gain := 1 }] tp_sideways =
      evaluate_test_point [{ freq := 1000, gain := 1 }]
        { tp_sideways with direction := "under" } :=
  claim_C5 [{ freq := 1000, gain := 1 }] tp_sideways (by decide)

/-- A legacy-format lot JSON carrying old-style `passed`/`failed` counts,
no explicit `passed_units`/`failed_units`, and no units list. -/
def legacy_info : LotInfoJson :=
  { passed_units_field := none, failed_units_field := none,
    passed_legacy := some 5, failed_legacy := some 2, units := [] }

/-- Counterexample to claim C9: with legacy count fields, no explicit
`passed_units`/`failed_units` and an empty (or absent) units list, the
loader takes the legacy counts verbatim (5, 2) instead of re-deriving
(0, 0) from the units list. -/
theorem claim_C9_counterexample :
    load_counts legacy_info = (5, 2) ∧
    ((count_passed legacy_info.units : Int),
      (legacy_info.units.length : Int) -
        (count_passed legacy_info.units : Int)) = (0, 0) ∧
    ((5 : Int), (2 : Int)) ≠ ((0 : Int), (0 : Int)) := by
  refine ⟨rfl, rfl, by decide⟩

/-- Claim C9 amended: the loaded counts are re-derived from the units list
(passing entries, and the rest) whenever the units list is non-empty and at
least one of the explicit `passed_units`/`failed_units` keys is absent;
with an empty or absent units list the legacy values are taken verbatim. -/
theorem claim_C9 (info : LotInfoJson) (hu : info.units ≠ [])
    (hm : info.passed_units_field = none ∨ info.failed_units_field = none) :
    load_counts info =
      ((count_passed info.units : Int),
        (info.units.length : Int) - (count_passed info.units : Int)) := by
  rcases hm with h | h <;> simp [load_counts, h, hu]

/-- A legacy-format lot JSON with a non-empty units list. -/
def legacy_info2 : LotInfoJson :=
  { passed_units_field := none, failed_units_field := none,
    passed_legacy := some 5, failed_legacy := some 2,
    units := [("A", true), ("B", false), ("C", false)] }

/-- Witness for (amended) claim C9 at a concrete legacy document. -/
theorem claim_C9_witness :
    load_counts legacy_info2 =
      ((count_passed legacy_info2.units : Int),
        (legacy_info2.units.length : Int) -
          (count_passed legacy_info2.units : Int)) :=
  claim_C9 legacy_info2 (by decide) (Or.inl rfl)

/-- Claim C2: after any sequence of saved runs on a fresh lot,
`passed_units + failed_units = len(units)`, the yield written to the lot
JSON is `passed_units / len(units)` (0 for an empty units table), and the
yield lies in [0, 1]. -/
theorem claim_C2 (runs : List (String × Option Bool)) :
    (apply_runs runs).passed_units + (apply_runs runs).failed_units =
      ((apply_runs runs).units.length : Int) ∧
    (write_lot_json (apply_runs runs)).yield_val =
      (if (apply_runs runs).units.length = 0 then 0
        else ((apply_runs runs).passed_units : ℚ) /
          ((apply_runs runs).units.length : ℚ)) ∧
    0 ≤ (write_lot_json (apply_runs runs)).yield_val ∧
    (write_lot_json (apply_runs runs)).yield_val ≤ 1 := by
  obtain ⟨hp, hf⟩ := apply_runs_consistent runs
  set st := apply_runs runs with hst
  have hsum := count_passed_add_count_failed st.units
  have hyv : (write_lot_json st).yield_val = lot_yield st := rfl
  have hp0 : (0 : Int) ≤ st.passed_units := by
    rw [hp]; exact_mod_cast Nat.zero_le _
  have hple : st.passed_units ≤ (st.units.length : Int) := by
    rw [hp]
    exact_mod_cast (List.countP_le_length _ : count_passed st.units ≤ _)
  refine ⟨?_, ?_, ?_, ?_⟩
  · rw [hp, hf]
    omega
  · rfl
  · rw [hyv, lot_yield]
    split
    · exact le_refl 0
    · next hlen =>
      apply div_nonneg
      · exact_mod_cast hp0
      · exact_mod_cast Nat.zero_le _
  · rw [hyv, lot_yield]
    split
    · exact zero_le_one
    · next hlen =>
      rw [div_le_one (by exact_mod_cast Nat.pos_of_ne_zero hlen)]
      exact_mod_cast hple

instance consistent_decidable (st : LotState) : Decidable (consistent st) := by
  unfold consistent
  infer_instance

/-- Claim C3: against any consistent ledger state, (1) a failing run for a
unit currently recorded as passing decrements `passed_units` by exactly one
(and it was at least 1, so it never goes below 0), increments
`failed_units`, flips that unit's entry to `false` and preserves
`len(units)`; (2) an unregistered unit's first run appends it and bumps the
matching counter; (3) a re-test with an unchanged outcome changes no count
and no entry. -/
theorem claim_C3 (st : LotState) (hc : consistent st) (uid : String) :
    (∀ w, find_unit st.units uid = some w → w.2 = true →
      (save_run st uid (some false)).passed_units = st.passed_units - 1 ∧
      1 ≤ st.passed_units ∧
      (save_run st uid (some false)).failed_units = st.failed_units + 1 ∧
      (save_run st uid (some false)).units = set_unit st.units uid false ∧
      find_unit (save_run st uid (some false)).units uid =
        some (uid, false) ∧
      (save_run st uid (some false)).units.length = st.units.length) ∧
    (∀ b, find_unit st.units uid = none →
      (save_run st uid (some b)).units = st.units ++ [(uid, b)] ∧
      (save_run st uid (some b)).passed_units =
        (if b then st.passed_units + 1 else st.passed_units) ∧
      (save_run st uid (some b)).failed_units =
        (if b then st.failed_units else st.failed_units + 1)) ∧
    (∀ w b, find_unit st.units uid = some w → w.2 = b →
      (save_run st uid (some b)).passed_units = st.passed_units ∧
      (save_run st uid (some b)).failed_units = st.failed_units ∧
      (save_run st uid (some b)).units = st.units) := by
  refine ⟨?_, ?_, ?_⟩
  · intro w hfind hw2
    have hmem := (find_unit_eq_some st.units uid w hfind).2
    have hpos : 1 ≤ count_passed st.units :=
      count_passed_pos st.units w hmem hw2
    have hp1 : 1 ≤ st.passed_units := by
      rw [hc.1]; exact_mod_cast hpos
    have hsave : save_run st uid (some false) =
        { st with
          samples := st.samples + 1
          units := set_unit st.units uid false
          failed_units := st.failed_units + 1
          passed_units := max 0 (st.passed_units - 1) } := by
      rw [save_run]
      simp [hfind, hw2]
    rw [hsave]
    refine ⟨by simp; omega, hp1, rfl, rfl, ?_, ?_⟩
    · exact find_unit_set_unit st.units uid false w hfind
    · exact set_unit_length st.units uid false
  · intro b hfind
    have hsave : save_run st uid (some b) =
        { st with
          samples := st.samples + 1
          units := st.units ++ [(uid, b)]
          passed_units := if b then st.passed_units + 1 else st.passed_units
          failed_units := if b then st.failed_units else st.failed_units + 1
          } := by
      rw [save_run]
      simp [hfind]
    rw [hsave]
    exact ⟨rfl, rfl, rfl⟩
  · intro w b hfind hw2
    have hsave : save_run st uid (some b) =
        { st with samples := st.samples + 1 } := by
      subst hw2
      rw [save_run]
      simp [hfind, Bool.and_not_self, Bool.not_and_self]
    rw [hsave]
    exact ⟨rfl, rfl, rfl⟩

/-- A consistent ledger with one passing and one failing unit. -/
def lotW : LotState :=
  { samples := 3, units := [("SNX", true), ("B", false)],
    passed_units := 1, failed_units := 1 }

/-- Witness for claim C3 at concrete states: a pass-to-fail re-test, a
first run of an unregistered unit, and an unchanged re-test. -/
theorem claim_C3_witness :
    ((save_run lotW "SNX" (some false)).passed_units =
        lotW.passed_units - 1 ∧
      1 ≤ lotW.passed_units ∧
      (save_run lotW "SNX" (some false)).failed_units =
        lotW.failed_units + 1 ∧
      (save_run lotW "SNX" (some false)).units =
        set_unit lotW.units "SNX" false ∧
      find_unit (save_run lotW "SNX" (some false)).units "SNX" =
        some ("SNX", false) ∧
      (save_run lotW "SNX" (some false)).units.length =
        lotW.units.length) ∧
    ((save_run lotW "NEW" (some true)).units = lotW.units ++ [("NEW", true)] ∧
      (save_run lotW "NEW" (some true)).passed_units =
        (if true then lotW.passed_units + 1 else lotW.passed_units) ∧
      (save_run lotW "NEW" (some true)).failed_units =
        (if true then lotW.failed_units else lotW.failed_units + 1)) ∧
    ((save_run lotW "B" (some false)).passed_units = lotW.passed_units ∧
      (save_run lotW "B" (some false)).failed_units = lotW.failed_units ∧
      (save_run lotW "B" (some false)).units = lotW.units) :=
  ⟨(claim_C3 lotW (by decide) "SNX").1 ("SNX", true) (by decide) rfl,
    (claim_C3 lotW (by decide) "NEW").2.1 true (by decide),
    (claim_C3 lotW (by decide) "B").2.2 ("B", false) false (by decide) rfl⟩

/-- Claim C6: `evaluate_testspec` returns exactly one result per rule, in
`spec.tests` order, evaluating the S11 trace when the rule's parameter is
case-insensitively "S11" and the S21 trace otherwise, and copying the
rule's static fields into the result. -/
theorem claim_C6 (s11 s21 : List Datapoint) (spec : TestSpec) :
    (evaluate_testspec s11 s21 spec).length = spec.tests.length ∧
    ∀ i : Nat, (evaluate_testspec s11 s21 spec).get? i =
      (spec.tests.get? i).map (fun tp =>
        { res := evaluate_test_point
            (if pyLower tp.parameter = pyLower "S11" then s11 else s21) tp,
          parameter := tp.parameter, freq := tp.frequency,
          limit_db := tp.limit_db, direction := tp.direction }) := by
  have h2 : pyLower "S11" = "s11" := by decide
  constructor
  · rw [evaluate_testspec]
    exact List.length_map _ _
  · intro i
    rw [evaluate_testspec, List.get?_map]
    cases spec.tests.get? i with
    | none => rfl
    | some tp => simp [h2]

/-- Claim C1 amended: the characterisation of pass/fail, failing
frequencies and min/max holds for every rule and trace under the added
hypothesis that at least one sample lies in the rule's inclusive window
(with zero in-window samples the code returns `passed = false` even though
the claim's universal quantification is vacuously true, and `min`/`max`
are `None`); the window is `[frequency - span // 2, frequency + span // 2]`
with floor division, both bounds inclusive; "over" collects violators with
`gain < limit_db`, any other direction (including "under") collects
`gain > limit_db`. -/
theorem claim_C1 (data : List Datapoint) (tp : TestPoint)
    (hne : data.filter (in_window tp) ≠ []) :
    (∀ dp : Datapoint, in_window tp dp = true ↔
      (tp.frequency - tp.span.fdiv 2 ≤ dp.freq ∧
        dp.freq ≤ tp.frequency + tp.span.fdiv 2)) ∧
    (tp.direction = "over" →
      ((evaluate_test_point data tp).pass = true ↔
        ∀ dp ∈ data, in_window tp dp = true → tp.limit_db ≤ dp.gain) ∧
      (evaluate_test_point data tp).failing =
        ((data.filter (in_window tp)).filter
          (fun dp => decide (dp.gain < tp.limit_db))).map (fun dp => dp.freq)) ∧
    (tp.direction = "under" →
      ((evaluate_test_point data tp).pass = true ↔
        ∀ dp ∈ data, in_window tp dp = true → dp.gain ≤ tp.limit_db) ∧
      (evaluate_test_point data tp).failing =
        ((data.filter (in_window tp)).filter
          (fun dp => decide (tp.limit_db < dp.gain))).map (fun dp => dp.freq)) ∧
    (∃ m, (evaluate_test_point data tp).min = some m ∧
      m ∈ (data.filter (in_window tp)).map (fun dp => dp.gain) ∧
      ∀ g ∈ (data.filter (in_window tp)).map (fun dp => dp.gain), m ≤ g) ∧
    (∃ M, (evaluate_test_point data tp).max = some M ∧
      M ∈ (data.filter (in_window tp)).map (fun dp => dp.gain) ∧
      ∀ g ∈ (data.filter (in_window tp)).map (fun dp => dp.gain), g ≤ M) := by
  have hne' : (data.filter (in_window tp)).isEmpty = false :=
    List.isEmpty_eq_false.mpr hne
  refine ⟨?_, ?_, ?_, ?_, ?_⟩
  · intro dp
    rw [in_window]
    simp
  · intro h
    have hb : (tp.direction == "over") = true := by simp [h]
    constructor
    · rw [evaluate_test_point]
      simp only [hne', Bool.false_eq_true, if_false, hb, if_true]
      simp only [beq_iff_eq, List.length_eq_zero, List.filter_eq_nil_iff,
        List.mem_filter, decide_eq_true_eq, not_lt]
      constructor
      · intro hall dp hdp hw
        exact hall dp ⟨hdp, hw⟩
      · intro hall dp hdp
        exact hall dp hdp.1 hdp.2
    · rw [evaluate_test_point]
      simp only [hne', Bool.false_eq_true, if_false, hb, if_true]
  · intro h
    have hb : (tp.direction == "over") = false := by
      rw [h]; decide
    constructor
    · rw [evaluate_test_point]
      simp only [hne', Bool.false_eq_true, if_false, hb]
      simp only [beq_iff_eq, List.length_eq_zero, List.filter_eq_nil_iff,
        List.mem_filter, decide_eq_true_eq, not_lt]
      constructor
      · intro hall dp hdp hw
        exact hall dp ⟨hdp, hw⟩
      · intro hall dp hdp
        exact hall dp hdp.1 hdp.2
    · rw [evaluate_test_point]
      simp only [hne', Bool.false_eq_true, if_false, hb]
  · have hmap : (data.filter (in_window tp)).map (fun dp => dp.gain) ≠ [] :=
      fun hcon => hne (by simpa using hcon)
    obtain ⟨m, hm, hmem, hall⟩ := listMin_spec _ hmap
    refine ⟨m, ?_, hmem, hall⟩
    rw [evaluate_test_point]
    simp only [hne', Bool.false_eq_true, if_false]
    exact hm
  · have hmap : (data.filter (in_window tp)).map (fun dp => dp.gain) ≠ [] :=
      fun hcon => hne (by simpa using hcon)
    obtain ⟨m, hm, hmem, hall⟩ := listMax_spec _ hmap
    refine ⟨m, ?_, hmem, hall⟩
    rw [evaluate_test_point]
    simp only [hne', Bool.false_eq_true, if_false]
    exact hm

/-- An "over" rule used as the zero-coverage counterexample for claim C1. -/
def tp_c1 : TestPoint :=
  { name := "W", parameter := "s21", frequency := 1000, span := 20,
    limit_db := 5, direction := "over" }

/-- Counterexample to claim C1 as stated: on an empty trace every in-window
sample vacuously satisfies `gain >= limit_db`, yet `evaluate_test_point`
returns `passed = false`, so the claimed equivalence fails without a
non-empty-window hypothesis. -/
theorem claim_C1_counterexample :
    (evaluate_test_point [] tp_c1).pass = false ∧
    (∀ dp ∈ ([] : List Datapoint), in_window tp_c1 dp = true →
      tp_c1.limit_db ≤ dp.gain) ∧
    ¬ ((evaluate_test_point [] tp_c1).pass = true ↔
        ∀ dp ∈ ([] : List Datapoint), in_window tp_c1 dp = true →
          tp_c1.limit_db ≤ dp.gain) := by
  refine ⟨rfl, by simp, ?_⟩
  intro hiff
  exact absurd (hiff.mpr (by simp)) (by decide)

/-- The trace and rule of the repository's `test_evaluate_point_over_pass`. -/
def dataW : List Datapoint :=
  [{ freq := 995, gain := 6 }, { freq := 1000, gain := 6 },
    { freq := 1005, gain := 6 }]

/-- The rule of the repository's `test_evaluate_point_over_pass`. -/
def tpW : TestPoint :=
  { name := "T1", parameter := "s21", frequency := 1000, span := 20,
    limit_db := 5, direction := "over" }

/-- Witness for (amended) claim C1 at the repository's own passing
scenario. -/
theorem claim_C1_witness :
    (evaluate_test_point dataW tpW).pass = true ∧
    (evaluate_test_point dataW tpW).failing = [] ∧
    (evaluate_test_point dataW tpW).min = some 6 ∧
    (evaluate_test_point dataW tpW).max = some 6 := by
  have h := claim_C1 dataW tpW (by decide)
  refine ⟨(h.2.1 rfl).1.mpr (by decide), ?_, by decide, by decide⟩
  rw [(h.2.1 rfl).2]
  decide
